import Mathlib

/-!
Verification development for the fxa-content-server authentication brokers:
a shallow embedding of `app/scripts/models/auth_brokers/base.js` (the base
authentication broker) and of the OAuth authentication broker, together with
the collaborator interfaces they consume.  Promises are collapsed to `Except`
values (the system is single-threaded and every hook is awaited before the
next starts), JavaScript objects with dynamic keys become association lists,
and possibly-missing JavaScript values become an explicit `JsValue.undefined`.
-/

namespace FxaBroker

/-- A behavior value object: `views/behaviors/null` (do nothing),
`views/behaviors/halt` (halt further navigation), or a navigation to a named
screen.  Behaviors are immutable tagged values. -/
inductive Behavior where
  | nullB : Behavior
  | halt : Behavior
  | navigate (screen : String) : Behavior
deriving DecidableEq, Repr

/-- The JavaScript values that flow through the broker: `undefined`, `null`,
booleans, strings, and behavior objects. -/
inductive JsValue where
  | undefined : JsValue
  | null : JsValue
  | bool (b : Bool) : JsValue
  | str (s : String) : JsValue
  | behavior (b : Behavior) : JsValue
deriving DecidableEq, Repr

/-- JavaScript truthiness (`!! v`): `undefined`, `null`, `false` and the
empty string are falsy; every other value here is truthy. -/
def truthy : JsValue → Bool
  | .undefined => false
  | .null => false
  | .bool b => b
  | .str s => s ≠ ""
  | .behavior _ => true

/-- The attribute map of a `Backbone.Model`: a finite partial assignment of
attribute names to values, modelled as a function (`none` = the property is
not present on the object).  Property order is not observed by any operation
under study, so the function model is faithful. -/
abbrev AttrMap := String → Option JsValue

/-- Build an attribute map from a literal attributes object. -/
def tableOf (l : List (String × JsValue)) : AttrMap :=
  fun name => l.lookup name

/-- The empty attributes object. -/
def emptyAttrs : AttrMap := fun _ => none

/-- `model.set(name, value)`: replace the binding for `name`, or add it. -/
def attrSet (m : AttrMap) (name : String) (v : JsValue) : AttrMap :=
  fun k => if k = name then some v else m k

/-- `model.unset(name)`: remove the binding for `name` entirely. -/
def attrUnset (m : AttrMap) (name : String) : AttrMap :=
  fun k => if k = name then none else m k

/-- `model.get(name)`: the bound value, or `undefined` when `name` was never
set. -/
def attrGet (m : AttrMap) (name : String) : JsValue :=
  (m name).getD .undefined

/-- `model.has(name)` (Backbone semantics): `get(name) != null`, i.e. true
exactly when the attribute is bound to a value other than `null` and
`undefined` — in particular true for a value of `false`. -/
def attrHas (m : AttrMap) (name : String) : Bool :=
  attrGet m name ≠ .null ∧ attrGet m name ≠ .undefined

/-- The errors surfaced by the brokers: `AuthErrors.toError('INVALID_TOKEN')`,
the three `OAuthErrors` raised by `_formatOAuthResult`, and plain
`new Error(msg)` throws/rejections. -/
inductive JsError where
  | invalidToken : JsError
  | invalidResult : JsError
  | invalidResultRedirect : JsError
  | invalidResultCode : JsError
  | jsError (msg : String) : JsError
deriving DecidableEq, Repr

/-! ## Base authentication broker (`models/auth_brokers/base.js`) -/

/-- The `defaultBehaviors` table of the base broker: every lifecycle hook is
seeded with a `NullBehavior`. -/
def defaultBehaviors : AttrMap :=
  tableOf
  [ ("afterChangePassword", .behavior .nullB),
    ("afterCompleteResetPassword", .behavior .nullB),
    ("afterCompleteSignUp", .behavior .nullB),
    ("afterDeleteAccount", .behavior .nullB),
    ("afterForceAuth", .behavior .nullB),
    ("afterResetPasswordConfirmationPoll", .behavior .nullB),
    ("afterSignIn", .behavior .nullB),
    ("afterSignInConfirmationPoll", .behavior .nullB),
    ("afterSignUp", .behavior .nullB),
    ("afterSignUpConfirmationPoll", .behavior .nullB),
    ("beforeSignIn", .behavior .nullB),
    ("beforeSignUpConfirmationPoll", .behavior .nullB) ]

/-- The `defaultCapabilities` table of the base broker. -/
def defaultCapabilities : AttrMap :=
  tableOf
  [ ("allowUidChange", .bool false),
    ("chooseWhatToSyncCheckbox", .bool true),
    ("convertExternalLinksToText", .bool false),
    ("emailVerificationMarketingSnippet", .bool true),
    ("handleSignedInNotification", .bool true),
    ("signup", .bool true),
    ("syncPreferencesNotification", .bool false) ]

/-- The mutable state a broker instance owns: its behavior registry, its
capability registry, the `_isForceAuth` field (a plain JS property, undefined
until `fetch` runs), and the Backbone attributes of the broker model itself
(which receive imported query parameters such as `automatedBrowser`). -/
structure BrokerState where
  behaviors : AttrMap
  capabilities : AttrMap
  isForceAuthCache : JsValue
  attributes : AttrMap

/-- `initialize`: seed both registries by copying the (possibly subclassed)
class-level default tables into fresh per-instance models; `_isForceAuth` is
not assigned, hence undefined. -/
def initializeBroker (defB defC : AttrMap) : BrokerState :=
  { behaviors := defB,
    capabilities := defC,
    isForceAuthCache := .undefined,
    attributes := emptyAttrs }

/-- `setBehavior(behaviorName, value)`. -/
def setBehavior (s : BrokerState) (name : String) (v : JsValue) : BrokerState :=
  { s with behaviors := attrSet s.behaviors name v }

/-- `getBehavior(behaviorName)`: throws
`new Error('behavior not found for: ' + behaviorName)` when the registry has
no such name, otherwise returns the stored behavior. -/
def getBehavior (s : BrokerState) (name : String) : Except JsError JsValue :=
  if ¬ attrHas s.behaviors name then
    .error (.jsError ("behavior not found for: " ++ name))
  else
    .ok (attrGet s.behaviors name)

/-- `setCapability(capabilityName, capabilityValue)`. -/
def setCapability (s : BrokerState) (name : String) (v : JsValue) : BrokerState :=
  { s with capabilities := attrSet s.capabilities name v }

/-- `unsetCapability(capabilityName)`. -/
def unsetCapability (s : BrokerState) (name : String) : BrokerState :=
  { s with capabilities := attrUnset s.capabilities name }

/-- `getCapability(capabilityName)`. -/
def getCapability (s : BrokerState) (name : String) : JsValue :=
  attrGet s.capabilities name

/-- `hasCapability(capabilityName)`:
`this._capabilities.has(name) && !! this._capabilities.get(name)`. -/
def hasCapability (s : BrokerState) (name : String) : Bool :=
  attrHas s.capabilities name && truthy (attrGet s.capabilities name)

/-- `_isForceAuthUrl()`: the window's pathname is exactly `/force_auth` or
`/oauth/force_auth`. -/
def isForceAuthUrl (pathname : String) : Bool :=
  pathname = "/force_auth" || pathname = "/oauth/force_auth"

/-- `isForceAuth()`: `!! this._isForceAuth`, the cached value from `fetch`. -/
def isForceAuth (s : BrokerState) : Bool :=
  truthy s.isForceAuthCache

/-- Modelled from the spec: `importSearchParamsUsingSchema` with the schema
`{ automatedBrowser: Vat.boolean() }` comes from the `SearchParamMixin`
(`models/mixins/search-param`) and `lib/vat`, which are absent from `src/`.
Per the spec, recognized query parameters are schema-validated and imported,
unrecognized ones are ignored, and malformed ones fail with a validation
error naming the parameter. -/
def importSearchParams (search : List (String × String)) (s : BrokerState) :
    Except JsError BrokerState :=
  match search.lookup "automatedBrowser" with
  | none => .ok s
  | some "true" => .ok { s with attributes := attrSet s.attributes "automatedBrowser" (.bool true) }
  | some "false" => .ok { s with attributes := attrSet s.attributes "automatedBrowser" (.bool false) }
  | some _ => .error (.jsError "invalid parameter: automatedBrowser")

/-- `fetch()`: assigns `_isForceAuth` from the current pathname, then imports
the recognized query parameters.  The assignment happens before the import,
so the cache is set even when the import fails. -/
def fetchBroker (pathname : String) (search : List (String × String))
    (s : BrokerState) : Except JsError BrokerState × BrokerState :=
  let s1 := { s with isForceAuthCache := .bool (isForceAuthUrl pathname) }
  match importSearchParams search s1 with
  | .ok s2 => (.ok s2, s2)
  | .error e => (.error e, s1)

/-! ## Accounts and the verification correlation store -/

/-- The account collaborator, as consumed by the brokers: read-only accessors
for `sessionToken`, `uid` and `email` (the remaining accessors are unused by
the code under study). -/
structure Account where
  sessionToken : JsValue
  uid : JsValue
  email : JsValue
deriving DecidableEq, Repr

/-- `account.get(name)` for the fields the brokers read. -/
def Account.get (a : Account) (name : String) : JsValue :=
  if name = "sessionToken" then a.sessionToken
  else if name = "uid" then a.uid
  else if name = "email" then a.email
  else .undefined

/-- The payload of a verification correlation record: `{ email, context }`. -/
structure VerRecord where
  email : JsValue
  context : JsValue
deriving DecidableEq, Repr

/-- Modelled from the spec: the verification correlation store behind
`SameBrowserVerificationModel` (`models/verification/same-browser`, absent
from `src/`): a keyed, namespaced persistence abstraction with
`persist(namespace, key, value)`, `read(namespace, key) -> value|absent` and
`clear(namespace, key)`, records keyed by `(namespace, uid)`. -/
abbrev CorrelationStore := List ((String × JsValue) × VerRecord)

/-- Modelled from the spec: `persist` writes the record for `(namespace, uid)`
(last-writer-wins for the same key). -/
def storePersist (st : CorrelationStore) (ns : String) (uid : JsValue)
    (v : VerRecord) : CorrelationStore :=
  ((ns, uid), v) :: st.filter fun kv => kv.1 ≠ (ns, uid)

/-- Modelled from the spec: `read` yields the record for `(namespace, uid)`,
or absent. -/
def storeRead (st : CorrelationStore) (ns : String) (uid : JsValue) :
    Option VerRecord :=
  st.lookup (ns, uid)

/-- Modelled from the spec: `clear` deletes any record for `(namespace, uid)`;
deleting an absent record is not an error. -/
def storeClear (st : CorrelationStore) (ns : String) (uid : JsValue) :
    CorrelationStore :=
  st.filter fun kv => kv.1 ≠ (ns, uid)

/-! ## The relier collaborator -/

/-- Modelled from the spec: the `Relier` collaborator (absent from `src/`)
exposes read-only accessors for exactly `clientId`, `scope`, `state`,
`accessType`, `uid`, `context` and `keys`. -/
structure Relier where
  clientId : JsValue
  scope : JsValue
  state : JsValue
  accessType : JsValue
  uid : JsValue
  context : JsValue
  keys : JsValue
deriving DecidableEq, Repr

/-- `relier.get(name)`: a Backbone read of one of the attributes above; any
other name — in particular `access_type` or `action` — reads as undefined. -/
def Relier.get (r : Relier) (name : String) : JsValue :=
  if name = "clientId" then r.clientId
  else if name = "scope" then r.scope
  else if name = "state" then r.state
  else if name = "accessType" then r.accessType
  else if name = "uid" then r.uid
  else if name = "context" then r.context
  else if name = "keys" then r.keys
  else .undefined

/-- Base broker `persistVerificationData(account)`: create a
`SameBrowserVerificationModel` for `(namespace 'context', account uid)`
carrying the account's email, set the relier's context on it, and persist. -/
def persistVerificationData (r : Relier) (a : Account)
    (st : CorrelationStore) : CorrelationStore :=
  storePersist st "context" (a.get "uid")
    { email := a.get "email", context := r.get "context" }

/-- Base broker `unpersistVerificationData(account)`: clear the record for
`(namespace 'context', account uid)`. -/
def unpersistVerificationData (a : Account) (st : CorrelationStore) :
    CorrelationStore :=
  storeClear st "context" (a.get "uid")

/-! ## OAuth authentication broker (the `src/unnamed/part_000` module) -/

/-- Modelled from the spec: `Constants.ACCESS_TYPE_OFFLINE` (`lib/constants`,
absent from `src/`) — the "offline" access type the relier may request. -/
def ACCESS_TYPE_OFFLINE : String := "offline"

/-- Modelled from the spec: `Constants.OAUTH_ACTION_SIGNIN`. -/
def OAUTH_ACTION_SIGNIN : String := "signin"

/-- Modelled from the spec: `Constants.OAUTH_ACTION_SIGNUP`. -/
def OAUTH_ACTION_SIGNUP : String := "signup"

/-- `_.extend({}, base, overrides)`: the base table with each override key
replaced (full replace per key). -/
def extendAttrs (base : AttrMap) (overrides : List (String × JsValue)) : AttrMap :=
  fun name =>
    match overrides.lookup name with
    | some v => some v
    | none => base name

/-- The OAuth broker's `defaultBehaviors`: the base table with
`afterForceAuth`, `afterSignIn` and `afterSignInConfirmationPoll` replaced by
`HaltBehavior`s. -/
def oauthDefaultBehaviors : AttrMap :=
  extendAttrs defaultBehaviors
    [ ("afterForceAuth", .behavior .halt),
      ("afterSignIn", .behavior .halt),
      ("afterSignInConfirmationPoll", .behavior .halt) ]

/-- The OAuth broker's `defaultCapabilities`: the base table with
`handleSignedInNotification` replaced by `false`. -/
def oauthDefaultCapabilities : AttrMap :=
  extendAttrs defaultCapabilities [("handleSignedInNotification", .bool false)]

/-- Split a character list at every occurrence of the separator (the
semantics of JavaScript's `String.prototype.split` with a one-character
separator). -/
def splitChar (sep : Char) : List Char → List (List Char)
  | [] => [[]]
  | c :: cs =>
      let r := splitChar sep cs
      if c = sep then [] :: r
      else
        match r with
        | [] => [[c]]
        | hd :: tl => (c :: hd) :: tl

/-- JavaScript `s.split(sep)` for a one-character separator. -/
def splitOnChar (sep : Char) (s : String) : List String :=
  (splitChar sep s.data).map fun l => ⟨l⟩

/-- Modelled from the spec: `Url.searchParam(name, query)` (`lib/url`, absent
from `src/`) — extract the named query parameter from a query string
(components separated by `&`, each `key=value`); extracting from an absent
query string yields nothing. -/
def searchParam (name : String) (query : Option String) : Option String :=
  match query with
  | none => none
  | some q =>
      (splitOnChar '&' q).findSome? fun term =>
        match splitOnChar '=' term with
        | key :: rest =>
            if key = name ∧ rest ≠ [] then some (String.intercalate "=" rest)
            else none
        | [] => none

/-- Turn an extracted query parameter into the JS value assigned to the
result object: the string, or undefined when the parameter is missing. -/
def jsOfParam : Option String → JsValue
  | some s => .str s
  | none => .undefined

/-- The OAuth result object: the `redirect` URL the OAuth server answered
with (absent when the server answered without one), the `state` and `code`
fields `_formatOAuthResult` assigns, and the `action` field merged in by
`finishOAuthFlow`. -/
structure OAuthRawResult where
  redirect : Option String
  state : JsValue
  code : JsValue
  action : JsValue
deriving DecidableEq, Repr

/-- `_formatOAuthResult(result)`: reject `INVALID_RESULT` when the result is
missing; reject `INVALID_RESULT_REDIRECT` when `result.redirect` is falsy;
otherwise assign `state` and `code` from the query-string portion of the
redirect (the text between the first and second `?`), reject
`INVALID_RESULT_CODE` when the assigned code fails
`Validate.isOAuthCodeValid` (abstracted as the `validate` parameter, since
`lib/validate` is absent from `src/`), and otherwise yield the updated
result.  The function touches no session state and no collaborator. -/
def formatOAuthResult (validate : JsValue → Bool)
    (result : Option OAuthRawResult) : Except JsError OAuthRawResult :=
  match result with
  | none => .error .invalidResult
  | some res =>
      match res.redirect with
      | none => .error .invalidResultRedirect
      | some rd =>
          if rd = "" then .error .invalidResultRedirect
          else
            let redirectParams := (splitOnChar '?' rd).get? 1
            let res1 := { res with
              state := jsOfParam (searchParam "state" redirectParams),
              code := jsOfParam (searchParam "code" redirectParams) }
            if ¬ validate res1.code then .error .invalidResultCode
            else .ok res1

/-- The collaborators the OAuth broker consumes:
`AssertionLibrary.generate(sessionToken)` and `OAuthClient.getCode(params)`
(the latter may answer a missing result). -/
structure OAuthCollabs where
  generate : JsValue → Except JsError String
  getCode : List (String × JsValue) → Except JsError (Option OAuthRawResult)

/-- The calls `getOAuthResult` makes on its collaborators, in order. -/
structure CollabTrace where
  generateCalls : List JsValue
  getCodeCalls : List (List (String × JsValue))
deriving DecidableEq, Repr

/-- The empty trace: no collaborator was invoked. -/
def CollabTrace.empty : CollabTrace := ⟨[], []⟩

/-- The `oauthParams` object `getOAuthResult` builds: always `assertion`,
`client_id`, `scope` and `state`, plus the `access_type` key exactly when the
relier's `accessType` equals `Constants.ACCESS_TYPE_OFFLINE`. -/
def oauthParams (r : Relier) (assertion : String) : List (String × JsValue) :=
  [ ("assertion", JsValue.str assertion),
    ("client_id", r.get "clientId"),
    ("scope", r.get "scope"),
    ("state", r.get "state") ] ++
  (if r.get "accessType" = .str ACCESS_TYPE_OFFLINE then
    [("access_type", JsValue.str ACCESS_TYPE_OFFLINE)]
  else [])

/-- `getOAuthResult(account)`: reject `INVALID_TOKEN` when the account is
missing or its `sessionToken` is falsy (invoking no collaborator); otherwise
generate an assertion from the session token, build the OAuth parameter set —
`assertion`, `client_id`, `scope`, `state`, plus `access_type` exactly when
the relier's `accessType` is the offline constant —, exchange it through
`getCode`, and format the answer with `_formatOAuthResult`. -/
def getOAuthResult (c : OAuthCollabs) (validate : JsValue → Bool)
    (r : Relier) (account : Option Account) :
    Except JsError OAuthRawResult × CollabTrace :=
  match account with
  | none => (.error .invalidToken, .empty)
  | some a =>
      if ¬ truthy (a.get "sessionToken") then (.error .invalidToken, .empty)
      else
        match c.generate (a.get "sessionToken") with
        | .error e => (.error e, ⟨[a.get "sessionToken"], []⟩)
        | .ok assertion =>
            match c.getCode (oauthParams r assertion) with
            | .error e =>
                (.error e, ⟨[a.get "sessionToken"], [oauthParams r assertion]⟩)
            | .ok raw =>
                (formatOAuthResult validate raw,
                 ⟨[a.get "sessionToken"], [oauthParams r assertion]⟩)

/-- The `Session` collaborator as the OAuth broker uses it: named slots
holding records; only the `oauth` slot is touched here. -/
abbrev Session := List (String × List (String × JsValue))

/-- `session.set(name, value)`. -/
def sessionSet (sess : Session) (name : String)
    (v : List (String × JsValue)) : Session :=
  (name, v) :: sess.filter fun kv => kv.1 ≠ name

/-- `session.clear(name)`. -/
def sessionClear (sess : Session) (name : String) : Session :=
  sess.filter fun kv => kv.1 ≠ name

/-- `session.get(name)`, used to observe the scratch state. -/
def sessionGet (sess : Session) (name : String) :
    Option (List (String × JsValue)) :=
  sess.lookup name

/-- The base OAuth broker's `sendOAuthResultToRelier`: always rejects with
`new Error('subclasses must override sendOAuthResultToRelier')`. -/
def sendOAuthResultToRelier (_result : OAuthRawResult) :
    Except JsError OAuthRawResult :=
  .error (.jsError "subclasses must override sendOAuthResultToRelier")

/-- `finishOAuthFlow(account, additionalResultData)`: clear the `oauth`
session scratch state first, then run `getOAuthResult`; on success merge the
additional data (its optional `action` key) into the result and delegate to
`sendOAuthResultToRelier`.  Yields the outcome, the session state left
behind, and the collaborator trace. -/
def finishOAuthFlow (c : OAuthCollabs) (validate : JsValue → Bool)
    (r : Relier) (account : Option Account) (extraAction : Option JsValue)
    (sess : Session) :
    Except JsError OAuthRawResult × Session × CollabTrace :=
  let sess1 := sessionClear sess "oauth"
  let (res, tr) := getOAuthResult c validate r account
  match res with
  | .error e => (.error e, sess1, tr)
  | .ok result =>
      let result1 :=
        match extraAction with
        | none => result
        | some v => { result with action := v }
      (sendOAuthResultToRelier result1, sess1, tr)

/-- `finishOAuthSignInFlow(account)`. -/
def finishOAuthSignInFlow (c : OAuthCollabs) (validate : JsValue → Bool)
    (r : Relier) (account : Option Account) (sess : Session) :
    Except JsError OAuthRawResult × Session × CollabTrace :=
  finishOAuthFlow c validate r account (some (.str OAUTH_ACTION_SIGNIN)) sess

/-- The OAuth broker's `persistVerificationData(account)`: store the relier
fields in the `oauth` session record — note the code reads the relier
attribute named `access_type`, not the `accessType` accessor — then perform
the base broker's correlation-record persistence. -/
def oauthPersistVerificationData (r : Relier) (a : Account)
    (sess : Session) (st : CorrelationStore) : Session × CorrelationStore :=
  let oauthRecord : List (String × JsValue) :=
    [ ("access_type", r.get "access_type"),
      ("action", r.get "action"),
      ("client_id", r.get "clientId"),
      ("keys", r.get "keys"),
      ("scope", r.get "scope"),
      ("state", r.get "state") ]
  (sessionSet sess "oauth" oauthRecord, persistVerificationData r a st)

/-! ## Heap-level model of broker construction

Claim C10 is about aliasing: the class-level default tables are shared
between instances, and isolation holds only because `initialize` passes each
table to the `Backbone.Model` constructor, which copies the attributes into a
fresh per-instance object.  To make that observable we model the object heap
explicitly: each `Backbone.Model` is a cell in a heap of attribute maps, and
`new Backbone.Model(attrs)` allocates a fresh cell holding a copy of
`attrs`. -/

/-- The object heap: cell index ↦ attribute map. -/
abbrev Heap := List AttrMap

/-- `new Backbone.Model(attrs)`: allocate a fresh cell holding a copy of the
given attributes, yielding the new heap and the cell's reference. -/
def heapAlloc (h : Heap) (m : AttrMap) : Heap × Nat :=
  (h ++ [m], h.length)

/-- Read a cell. -/
def heapRead (h : Heap) (r : Nat) : AttrMap :=
  (h.get? r).getD emptyAttrs

/-- Overwrite a cell. -/
def heapWrite (h : Heap) (r : Nat) (m : AttrMap) : Heap :=
  h.set r m

/-- A broker instance: references to its `_behaviors` and `_capabilities`
models. -/
structure BrokerRef where
  behaviorsRef : Nat
  capabilitiesRef : Nat
deriving DecidableEq, Repr

/-- `initialize` at the heap level:
`this._behaviors = new Backbone.Model(this.defaultBehaviors)` and
`this._capabilities = new Backbone.Model(this.defaultCapabilities)`. -/
def constructBroker (h : Heap) (defB defC : AttrMap) : Heap × BrokerRef :=
  let hb := heapAlloc h defB
  let hc := heapAlloc hb.1 defC
  (hc.1, ⟨hb.2, hc.2⟩)

/-- The broker operations that mutate an instance's registries. -/
inductive MutOp where
  | setB (name : String) (v : JsValue) : MutOp
  | setC (name : String) (v : JsValue) : MutOp
  | unsetC (name : String) : MutOp
deriving DecidableEq, Repr

/-- Run one mutating operation (`setBehavior`, `setCapability`,
`unsetCapability`) against a broker instance. -/
def applyMutOp (h : Heap) (b : BrokerRef) : MutOp → Heap
  | .setB name v =>
      heapWrite h b.behaviorsRef (attrSet (heapRead h b.behaviorsRef) name v)
  | .setC name v =>
      heapWrite h b.capabilitiesRef (attrSet (heapRead h b.capabilitiesRef) name v)
  | .unsetC name =>
      heapWrite h b.capabilitiesRef (attrUnset (heapRead h b.capabilitiesRef) name)

/-- Run a sequence of mutating operations against one broker instance. -/
def applyMutOps (h : Heap) (b : BrokerRef) : List MutOp → Heap
  | [] => h
  | op :: ops => applyMutOps (applyMutOp h b op) b ops

/-- `getBehavior` at the heap level. -/
def getBehaviorH (h : Heap) (b : BrokerRef) (name : String) :
    Except JsError JsValue :=
  if ¬ attrHas (heapRead h b.behaviorsRef) name then
    .error (.jsError ("behavior not found for: " ++ name))
  else
    .ok (attrGet (heapRead h b.behaviorsRef) name)

/-- `getCapability` at the heap level. -/
def getCapabilityH (h : Heap) (b : BrokerRef) (name : String) : JsValue :=
  attrGet (heapRead h b.capabilitiesRef) name

/-- `hasCapability` at the heap level. -/
def hasCapabilityH (h : Heap) (b : BrokerRef) (name : String) : Bool :=
  attrHas (heapRead h b.capabilitiesRef) name &&
    truthy (attrGet (heapRead h b.capabilitiesRef) name)

/-! ## Spec-side definition for claim C2 -/

/-- The result-formatting cascade exactly as claim C2 words it: absent result
→ invalid-result error; absent `redirect` field → invalid-result-redirect
error; otherwise extract `state` and `code` from the redirect's query string,
fail with the invalid-result-code error when the code does not satisfy the
validator, and otherwise succeed with the augmented result.  (Unlike the
code, this does not treat a present-but-empty redirect string as missing.) -/
def formatOAuthResultClaim (validate : JsValue → Bool)
    (result : Option OAuthRawResult) : Except JsError OAuthRawResult :=
  match result with
  | none => .error .invalidResult
  | some res =>
      match res.redirect with
      | none => .error .invalidResultRedirect
      | some rd =>
          let redirectParams := (splitOnChar '?' rd).get? 1
          let res1 := { res with
            state := jsOfParam (searchParam "state" redirectParams),
            code := jsOfParam (searchParam "code" redirectParams) }
          if ¬ validate res1.code then .error .invalidResultCode
          else .ok res1

/-! ## Concrete fixtures used by counterexamples and witnesses -/

/-- A sample code validator: accepts exactly non-empty strings. -/
def sampleValidate (v : JsValue) : Bool :=
  match v with
  | .str s => s ≠ ""
  | _ => false

/-- A sample relier that requested offline access. -/
def sampleRelier : Relier :=
  { clientId := .str "dcdb5ae7add825d2",
    scope := .str "profile",
    state := .str "state-123",
    accessType := .str "offline",
    uid := .str "uid-1",
    context := .str "oauth",
    keys := .bool true }

/-- A sample relier that did not request offline access. -/
def sampleOnlineRelier : Relier :=
  { sampleRelier with accessType := .undefined }

/-- A sample account holding a session token. -/
def sampleAccount : Account :=
  { sessionToken := .str "session-token-1",
    uid := .str "uid-1",
    email := .str "user@example.com" }

/-- Sample collaborators: assertion generation always yields `"assertion-1"`,
and the code exchange always answers a fixed redirect. -/
def sampleCollabs : OAuthCollabs :=
  { generate := fun _ => .ok "assertion-1",
    getCode := fun _ =>
      .ok (some { redirect := some "https://rp/cb?state=state-123&code=code-1",
                  state := .undefined, code := .undefined, action := .undefined }) }

/-! ## Helper lemmas -/

theorem attrGet_attrSet (m : AttrMap) (n name : String) (v : JsValue) :
    attrGet (attrSet m n v) name = if name = n then v else attrGet m name := by
  unfold attrGet attrSet
  by_cases hn : name = n <;> simp [hn]

theorem attrGet_attrUnset (m : AttrMap) (n name : String) :
    attrGet (attrUnset m n) name = if name = n then .undefined else attrGet m name := by
  unfold attrGet attrUnset
  by_cases hn : name = n <;> simp [hn]

/-- The base broker immediately after construction. -/
def baseBrokerInit : BrokerState :=
  initializeBroker defaultBehaviors defaultCapabilities

/-- An OAuth-server result whose redirect is present but empty. -/
def emptyRedirectResult : OAuthRawResult :=
  { redirect := some "", state := .undefined, code := .undefined, action := .undefined }

/-! ## Claims -/

/-- C1: for every account that is null or whose `sessionToken` accessor
yields no value, `getOAuthResult(account)` fails with `InvalidTokenError`,
and neither the assertion collaborator's `generate` nor the OAuth client's
`getCode` is invoked (the collaborator trace is empty). -/
theorem getOAuthResult_invalid_token (c : OAuthCollabs) (validate : JsValue → Bool)
    (r : Relier) (account : Option Account)
    (h : account = none ∨ ∃ a, account = some a ∧ a.get "sessionToken" = .undefined) :
    getOAuthResult c validate r account = (.error .invalidToken, .empty) := by
  rcases h with h | ⟨a, ha, htok⟩
  · subst h; rfl
  · subst ha
    simp [getOAuthResult, htok, truthy]

/-- Witness for C1: a concrete account without a session token is rejected
with the invalid-token error and no collaborator call. -/
theorem getOAuthResult_invalid_token_witness :
    getOAuthResult sampleCollabs sampleValidate sampleRelier
        (some { sessionToken := .undefined, uid := .str "uid-1", email := .str "e" }) =
      (.error .invalidToken, .empty) :=
  getOAuthResult_invalid_token sampleCollabs sampleValidate sampleRelier
    (some { sessionToken := .undefined, uid := .str "uid-1", email := .str "e" })
    (Or.inr ⟨_, rfl, rfl⟩)

/-- Counterexample for C2: on a result whose `redirect` field is present but
empty, `_formatOAuthResult` fails with the invalid-result-redirect error,
while the claimed cascade (which only treats an *absent* redirect that way)
proceeds to extraction and fails with the invalid-result-code error. -/
theorem formatOAuthResult_claim_counterexample :
    ¬ (formatOAuthResult sampleValidate (some emptyRedirectResult) =
       formatOAuthResultClaim sampleValidate (some emptyRedirectResult)) := by
  intro hc
  have h1 : formatOAuthResult sampleValidate (some emptyRedirectResult) =
      .error .invalidResultRedirect := rfl
  have h2 : formatOAuthResultClaim sampleValidate (some emptyRedirectResult) =
      .error .invalidResultCode := rfl
  rw [h1, h2] at hc
  exact absurd (Except.error.inj hc) (by decide)

/-- C2 (amended): `_formatOAuthResult` fails with the invalid-result error on
an absent result; fails with the invalid-result-redirect error when the
redirect field is absent *or empty*; otherwise extracts `state` and `code`
from the redirect's query string, fails with the invalid-result-code error
when the extracted code does not satisfy the code-format validator, and
otherwise succeeds with the original result augmented with the parsed state
and code.  It performs no side effects (it is a pure function of its
arguments). -/
theorem formatOAuthResult_cascade (validate : JsValue → Bool) :
    formatOAuthResult validate none = .error .invalidResult
  ∧ (∀ res : OAuthRawResult, (res.redirect = none ∨ res.redirect = some "") →
      formatOAuthResult validate (some res) = .error .invalidResultRedirect)
  ∧ (∀ (res : OAuthRawResult) (rd : String), res.redirect = some rd → rd ≠ "" →
      formatOAuthResult validate (some res) =
        (if validate (jsOfParam (searchParam "code" ((splitOnChar '?' rd).get? 1))) then
          .ok { res with
            state := jsOfParam (searchParam "state" ((splitOnChar '?' rd).get? 1)),
            code := jsOfParam (searchParam "code" ((splitOnChar '?' rd).get? 1)) }
        else .error .invalidResultCode)) := by
  refine ⟨rfl, ?_, ?_⟩
  · intro res h
    rcases h with h | h <;> simp [formatOAuthResult, h]
  · intro res rd hrd hne
    simp only [formatOAuthResult, hrd]
    rw [if_neg hne]
    by_cases hv : validate (jsOfParam (searchParam "code" (splitOnChar '?' rd)[1]?))
    · simp [hv]
    · simp [hv]

/-- Witness for C2 (amended): on a redirect carrying `state` and `code`
query parameters with a code the validator accepts, the result is augmented
with the parsed state and code. -/
theorem formatOAuthResult_cascade_witness :
    formatOAuthResult sampleValidate
        (some { redirect := some "https://rp/cb?state=state-123&code=code-1",
                state := .undefined, code := .undefined, action := .undefined }) =
      .ok { redirect := some "https://rp/cb?state=state-123&code=code-1",
            state := .str "state-123", code := .str "code-1", action := .undefined } := by
  have h := (formatOAuthResult_cascade sampleValidate).2.2
      { redirect := some "https://rp/cb?state=state-123&code=code-1",
        state := .undefined, code := .undefined, action := .undefined }
      "https://rp/cb?state=state-123&code=code-1" rfl (by decide)
  rw [h]
  rfl

/-- Counterexample for C4: the capability `allowUidChange` is explicitly
seeded (to `false`) at default-seed time on the freshly constructed base
broker, yet `hasCapability('allowUidChange')` answers `false` — so
`hasCapability` is not "true iff the name was explicitly set, regardless of
the value". -/
theorem hasCapability_claim_counterexample :
    ¬ (hasCapability baseBrokerInit "allowUidChange" = true ↔
       (baseBrokerInit.capabilities "allowUidChange").isSome = true) := by
  decide

/-- C4 (amended): `hasCapability(name)` returns true iff the stored value is
truthy — a capability seeded or set to `false` answers `false`, a never-set
name answers `false` without throwing, and an unset capability is
distinguishable from a capability set to false only through `getCapability`
(`undefined` vs `false`), not through `hasCapability`. -/
theorem hasCapability_truthy (s : BrokerState) (name : String) :
    hasCapability s name = truthy (attrGet s.capabilities name)
  ∧ hasCapability baseBrokerInit "allowUidChange" = false
  ∧ hasCapability baseBrokerInit "neverSetCapabilityName" = false
  ∧ getCapability baseBrokerInit "allowUidChange" = .bool false
  ∧ getCapability baseBrokerInit "neverSetCapabilityName" = .undefined := by
  refine ⟨?_, by decide, by decide, by decide, by decide⟩
  cases hv : attrGet s.capabilities name <;>
    simp [hasCapability, attrHas, truthy, hv]

/-- C3: whenever the assertion step succeeds, the parameter set handed to the
OAuth client's `getCode` carries the `access_type: offline` key exactly when
the relier's `accessType` equals the offline access-type constant — for any
other access type the key is absent altogether (not set to false) — and
besides it always consists of exactly the `assertion`, `client_id`, `scope`
and `state` fields. -/
theorem getOAuthResult_offline_flag (c : OAuthCollabs) (validate : JsValue → Bool)
    (r : Relier) (a : Account) (assertion : String)
    (htok : truthy (a.get "sessionToken") = true)
    (hgen : c.generate (a.get "sessionToken") = .ok assertion) :
    (getOAuthResult c validate r (some a)).2.getCodeCalls = [oauthParams r assertion]
  ∧ (oauthParams r assertion).map Prod.fst =
      ["assertion", "client_id", "scope", "state"] ++
        (if r.get "accessType" = .str ACCESS_TYPE_OFFLINE then ["access_type"] else [])
  ∧ (r.get "accessType" = .str ACCESS_TYPE_OFFLINE →
      (oauthParams r assertion).lookup "access_type" = some (.str ACCESS_TYPE_OFFLINE))
  ∧ (r.get "accessType" ≠ .str ACCESS_TYPE_OFFLINE →
      (oauthParams r assertion).lookup "access_type" = none) := by
  refine ⟨?_, ?_, ?_, ?_⟩
  · simp only [getOAuthResult, htok, hgen]
    cases hcode : c.getCode (oauthParams r assertion) <;> simp [hcode]
  · by_cases hoff : r.get "accessType" = .str ACCESS_TYPE_OFFLINE <;>
      simp [oauthParams, hoff]
  · intro hoff
    simp only [oauthParams, if_pos hoff]
    rfl
  · intro hoff
    simp only [oauthParams, if_neg hoff]
    rfl

/-- Witness for C3: with the sample offline relier, the single `getCode` call
receives the parameter set bearing `access_type: offline`. -/
theorem getOAuthResult_offline_flag_witness :
    (getOAuthResult sampleCollabs sampleValidate sampleRelier
        (some sampleAccount)).2.getCodeCalls =
      [oauthParams sampleRelier "assertion-1"]
  ∧ (oauthParams sampleRelier "assertion-1").lookup "access_type" =
      some (.str ACCESS_TYPE_OFFLINE) := by
  have h := getOAuthResult_offline_flag sampleCollabs sampleValidate sampleRelier
    sampleAccount "assertion-1" rfl rfl
  exact ⟨h.1, h.2.2.1 rfl⟩

/-- Run a sequence of `setBehavior` calls against a broker. -/
def applyBehaviorSets (s : BrokerState) : List (String × JsValue) → BrokerState
  | [] => s
  | (n, v) :: rest => applyBehaviorSets (setBehavior s n v) rest

theorem behaviors_applyBehaviorSets (name : String) :
    ∀ (sets : List (String × JsValue)) (s : BrokerState),
      sets.lookup name = none →
      (applyBehaviorSets s sets).behaviors name = s.behaviors name := by
  intro sets
  induction sets with
  | nil => intro s _; rfl
  | cons hd tl ih =>
      obtain ⟨n, v⟩ := hd
      intro s h
      have hne : ¬ name = n := by
        intro he
        subst he
        simp [List.lookup] at h
      have htl : tl.lookup name = none := by
        have hbe : (name == n) = false := by simp [hne]
        simpa [List.lookup, hbe] using h
      show (applyBehaviorSets (setBehavior s n v) tl).behaviors name = s.behaviors name
      rw [ih _ htl]
      simp [setBehavior, attrSet, hne]

/-- C5: `getBehavior` on a name that was neither seeded from the default
behavior table nor explicitly set via `setBehavior` fails with the
behavior-not-found error; and for every name in the default table,
`getBehavior` right after construction returns the declared default. -/
theorem getBehavior_default_table (sets : List (String × JsValue)) (name : String)
    (h1 : defaultBehaviors name = none) (h2 : sets.lookup name = none) :
    getBehavior (applyBehaviorSets baseBrokerInit sets) name =
      .error (.jsError ("behavior not found for: " ++ name))
  ∧ (∀ (n : String) (b : Behavior), defaultBehaviors n = some (.behavior b) →
      getBehavior baseBrokerInit n = .ok (.behavior b)) := by
  constructor
  · have hb : (applyBehaviorSets baseBrokerInit sets).behaviors name = none := by
      rw [behaviors_applyBehaviorSets name sets _ h2]
      exact h1
    simp [getBehavior, attrHas, attrGet, hb]
  · intro n b hb
    simp [getBehavior, attrHas, attrGet, baseBrokerInit, initializeBroker, hb]

/-- Witness for C5: after additionally setting one behavior, a name outside
both the default table and the set fails with the behavior-not-found error,
while the seeded hook `afterSignIn` answers its declared `NullBehavior`
default. -/
theorem getBehavior_default_table_witness :
    getBehavior (applyBehaviorSets baseBrokerInit [("afterSignIn", .behavior .halt)])
        "notAHook" = .error (.jsError "behavior not found for: notAHook")
  ∧ getBehavior baseBrokerInit "afterSignIn" = .ok (.behavior .nullB) := by
  have h := getBehavior_default_table [("afterSignIn", .behavior .halt)] "notAHook"
    rfl rfl
  exact ⟨h.1, h.2 "afterSignIn" .nullB rfl⟩

/-- C6 (code bug): evaluated on a relier whose `accessType` accessor answers
`offline`, the OAuth broker's `persistVerificationData` stores `undefined`
under the session record's `access_type` key — the code reads the relier
attribute named `access_type`, which the relier does not expose (its
accessor is `accessType`, the very name `getOAuthResult` reads) — instead of
the relier's requested access type; the other stored fields match the
relier. -/
theorem oauthPersist_access_type_bug :
    sampleRelier.get "accessType" = .str "offline"
  ∧ sessionGet (oauthPersistVerificationData sampleRelier sampleAccount [] []).1
        "oauth" =
      some [ ("access_type", .undefined),
             ("action", .undefined),
             ("client_id", .str "dcdb5ae7add825d2"),
             ("keys", .bool true),
             ("scope", .str "profile"),
             ("state", .str "state-123") ] := by
  constructor <;> rfl

theorem storeRead_storeClear (ns : String) (uid : JsValue) :
    ∀ st : CorrelationStore, storeRead (storeClear st ns uid) ns uid = none := by
  intro st
  induction st with
  | nil => rfl
  | cons hd tl ih =>
      obtain ⟨k, v⟩ := hd
      by_cases hk : k = (ns, uid)
      · simpa [storeClear, storeRead, List.filter, hk] using ih
      · have hbe : ((ns, uid) == k) = false := by
          simp [Ne.symm hk]
        have hdec : (decide (k ≠ (ns, uid))) = true := by simp [hk]
        simp only [storeClear, List.filter, hdec] at ih ⊢
        simpa [storeRead, List.lookup, hbe] using ih

theorem storeClear_idem (ns : String) (uid : JsValue) :
    ∀ st : CorrelationStore,
      storeClear (storeClear st ns uid) ns uid = storeClear st ns uid := by
  intro st
  induction st with
  | nil => rfl
  | cons hd tl ih =>
      obtain ⟨k, v⟩ := hd
      by_cases hk : k = (ns, uid)
      · simp [storeClear, List.filter, hk]
      · have hdec : (decide (k ≠ (ns, uid))) = true := by simp [hk]
        simp only [storeClear, List.filter, hdec] at ih ⊢
        rw [ih]

/-- C7: `persistVerificationData` followed by `unpersistVerificationData` for
the same account leaves no readable correlation record under
`(namespace 'context', account uid)`, and `unpersistVerificationData` is
idempotent — clearing an absent record (including clearing twice in a row)
is not an error but a no-op on the already-cleared store. -/
theorem persist_unpersist_roundtrip (r : Relier) (a : Account)
    (st : CorrelationStore) :
    storeRead (unpersistVerificationData a (persistVerificationData r a st))
        "context" (a.get "uid") = none
  ∧ unpersistVerificationData a (unpersistVerificationData a st) =
      unpersistVerificationData a st := by
  constructor
  · exact storeRead_storeClear "context" (a.get "uid") _
  · exact storeClear_idem "context" (a.get "uid") st

theorem sessionGet_sessionClear (name : String) :
    ∀ sess : Session, sessionGet (sessionClear sess name) name = none := by
  intro sess
  induction sess with
  | nil => rfl
  | cons hd tl ih =>
      obtain ⟨k, v⟩ := hd
      by_cases hk : k = name
      · simpa [sessionClear, sessionGet, List.filter, hk] using ih
      · have hbe : (name == k) = false := by
          simp [Ne.symm hk]
        have hdec : (decide (k ≠ name)) = true := by simp [hk]
        simp only [sessionClear, List.filter, hdec] at ih ⊢
        simpa [sessionGet, List.lookup, hbe] using ih

/-- C8: `finishOAuthFlow` is not atomic on error — whenever `getOAuthResult`
fails (for example on an account without a session token), `finishOAuthFlow`
rejects with that same error, yet the `oauth` session scratch state has
already been cleared, because the clear happens unconditionally before
`getOAuthResult` runs. -/
theorem finishOAuthFlow_clears_session_on_error (c : OAuthCollabs)
    (validate : JsValue → Bool) (r : Relier) (account : Option Account)
    (extra : Option JsValue) (sess : Session) (e : JsError)
    (h : (getOAuthResult c validate r account).1 = .error e) :
    (finishOAuthFlow c validate r account extra sess).1 = .error e
  ∧ sessionGet (finishOAuthFlow c validate r account extra sess).2.1 "oauth" =
      none := by
  rcases hres : getOAuthResult c validate r account with ⟨res, tr⟩
  rw [hres] at h
  simp only at h
  subst h
  constructor
  · simp [finishOAuthFlow, hres]
  · simp only [finishOAuthFlow, hres]
    exact sessionGet_sessionClear "oauth" sess

/-- Witness for C8: a concrete flow on a missing account rejects with the
invalid-token error while the pre-populated `oauth` scratch record is gone. -/
theorem finishOAuthFlow_clears_session_on_error_witness :
    (finishOAuthFlow sampleCollabs sampleValidate sampleRelier none none
        [("oauth", [("client_id", .str "dcdb5ae7add825d2")])]).1 =
      .error .invalidToken
  ∧ sessionGet (finishOAuthFlow sampleCollabs sampleValidate sampleRelier none
        none [("oauth", [("client_id", .str "dcdb5ae7add825d2")])]).2.1
        "oauth" = none :=
  finishOAuthFlow_clears_session_on_error sampleCollabs sampleValidate
    sampleRelier none none [("oauth", [("client_id", .str "dcdb5ae7add825d2")])]
    .invalidToken rfl

theorem importSearchParams_cache (search : List (String × String))
    (s s' : BrokerState) (h : importSearchParams search s = .ok s') :
    s'.isForceAuthCache = s.isForceAuthCache := by
  unfold importSearchParams at h
  cases hl : search.lookup "automatedBrowser" with
  | none =>
      rw [hl] at h
      cases h
      rfl
  | some str =>
      rw [hl] at h
      by_cases ht : str = "true"
      · subst ht
        cases h
        rfl
      · by_cases hf : str = "false"
        · subst hf
          cases h
          rfl
        · exfalso
          simp only [ht, hf] at h
          exact Except.noConfusion h

/-- C9: `isForceAuth()` is a total boolean observer (it cannot throw); on a
freshly constructed broker — before `fetch` has run — it answers `false`;
after `fetch` it answers `true` exactly when the window's pathname at fetch
time was `/force_auth` or `/oauth/force_auth` (whether or not the
query-parameter import inside `fetch` succeeded); and the cached value is untouched by
`setBehavior`, `setCapability` and `unsetCapability`, the operations that
mutate broker state. -/
theorem isForceAuth_cached :
    (∀ defB defC, isForceAuth (initializeBroker defB defC) = false)
  ∧ (∀ pathname search s,
      (isForceAuth (fetchBroker pathname search s).2 = true ↔
        (pathname = "/force_auth" ∨ pathname = "/oauth/force_auth")))
  ∧ (∀ s name v, isForceAuth (setBehavior s name v) = isForceAuth s)
  ∧ (∀ s name v, isForceAuth (setCapability s name v) = isForceAuth s)
  ∧ (∀ s name, isForceAuth (unsetCapability s name) = isForceAuth s) := by
  refine ⟨fun _ _ => rfl, ?_, fun _ _ _ => rfl, fun _ _ _ => rfl, fun _ _ => rfl⟩
  intro pathname search s
  unfold fetchBroker
  set s1 : BrokerState :=
    { s with isForceAuthCache := .bool (isForceAuthUrl pathname) } with hs1
  cases him : importSearchParams search s1 with
  | ok s2 =>
      have hc := importSearchParams_cache _ _ _ him
      simp only [him, isForceAuth, hc, hs1]
      simp [truthy, isForceAuthUrl]
  | error e =>
      simp only [him, isForceAuth, hs1]
      simp [truthy, isForceAuthUrl]

theorem heapRead_heapWrite_ne (h : Heap) (r r' : Nat) (m : AttrMap)
    (hne : r' ≠ r) : heapRead (heapWrite h r m) r' = heapRead h r' := by
  unfold heapRead heapWrite
  congr 1
  rw [List.get?_eq_getElem?, List.get?_eq_getElem?]
  exact List.getElem?_set_ne (fun he => hne he.symm)

theorem heapRead_applyMutOp (h : Heap) (b : BrokerRef) (op : MutOp) (r : Nat)
    (h1 : r ≠ b.behaviorsRef) (h2 : r ≠ b.capabilitiesRef) :
    heapRead (applyMutOp h b op) r = heapRead h r := by
  cases op with
  | setB name v => exact heapRead_heapWrite_ne _ _ _ _ h1
  | setC name v => exact heapRead_heapWrite_ne _ _ _ _ h2
  | unsetC name => exact heapRead_heapWrite_ne _ _ _ _ h2

theorem heapRead_applyMutOps (b : BrokerRef) (r : Nat)
    (h1 : r ≠ b.behaviorsRef) (h2 : r ≠ b.capabilitiesRef) :
    ∀ (ops : List MutOp) (h : Heap),
      heapRead (applyMutOps h b ops) r = heapRead h r := by
  intro ops
  induction ops with
  | nil => intro h; rfl
  | cons op rest ih =>
      intro h
      show heapRead (applyMutOps (applyMutOp h b op) b rest) r = heapRead h r
      rw [ih (applyMutOp h b op), heapRead_applyMutOp h b op r h1 h2]

theorem reads_applyMutOps (hp : Heap) (b bo : BrokerRef) (ops : List MutOp)
    (name : String)
    (h1 : bo.behaviorsRef ≠ b.behaviorsRef)
    (h2 : bo.behaviorsRef ≠ b.capabilitiesRef)
    (h3 : bo.capabilitiesRef ≠ b.behaviorsRef)
    (h4 : bo.capabilitiesRef ≠ b.capabilitiesRef) :
    getBehaviorH (applyMutOps hp b ops) bo name = getBehaviorH hp bo name
  ∧ getCapabilityH (applyMutOps hp b ops) bo name = getCapabilityH hp bo name
  ∧ hasCapabilityH (applyMutOps hp b ops) bo name = hasCapabilityH hp bo name := by
  have hb := heapRead_applyMutOps b bo.behaviorsRef h1 h2 ops hp
  have hc := heapRead_applyMutOps b bo.capabilitiesRef h3 h4 ops hp
  refine ⟨?_, ?_, ?_⟩
  · unfold getBehaviorH
    rw [hb]
  · unfold getCapabilityH
    rw [hc]
  · unfold hasCapabilityH
    rw [hc]

/-- C10: broker instances are isolated despite the class-level shared
default tables.  Construct two brokers in sequence (each construction copies
the default tables into freshly allocated per-instance models); then any
sequence of `setBehavior`/`setCapability`/`unsetCapability` operations run
against either instance leaves every `getBehavior`, `getCapability` and
`hasCapability` read on the other instance unchanged. -/
theorem broker_instances_isolated (h : Heap) (defB defC defB2 defC2 : AttrMap)
    (ops : List MutOp) (name : String) :
    let p1 := constructBroker h defB defC
    let p2 := constructBroker p1.1 defB2 defC2
    (getBehaviorH (applyMutOps p2.1 p1.2 ops) p2.2 name
        = getBehaviorH p2.1 p2.2 name
      ∧ getCapabilityH (applyMutOps p2.1 p1.2 ops) p2.2 name
        = getCapabilityH p2.1 p2.2 name
      ∧ hasCapabilityH (applyMutOps p2.1 p1.2 ops) p2.2 name
        = hasCapabilityH p2.1 p2.2 name)
  ∧ (getBehaviorH (applyMutOps p2.1 p2.2 ops) p1.2 name
        = getBehaviorH p2.1 p1.2 name
      ∧ getCapabilityH (applyMutOps p2.1 p2.2 ops) p1.2 name
        = getCapabilityH p2.1 p1.2 name
      ∧ hasCapabilityH (applyMutOps p2.1 p2.2 ops) p1.2 name
        = hasCapabilityH p2.1 p1.2 name) := by
  intro p1 p2
  have hp1 : p1.2 = ⟨h.length, h.length + 1⟩ := by
    unfold p1
    simp [constructBroker, heapAlloc]
  have hp2 : p2.2 = ⟨h.length + 2, h.length + 3⟩ := by
    unfold p2 p1
    simp [constructBroker, heapAlloc]
  constructor
  · refine reads_applyMutOps p2.1 p1.2 p2.2 ops name ?_ ?_ ?_ ?_ <;>
      rw [hp1, hp2] <;> simp
  · refine reads_applyMutOps p2.1 p2.2 p1.2 ops name ?_ ?_ ?_ ?_ <;>
      rw [hp1, hp2] <;> simp

end FxaBroker
